import Mathlib

/-!
Verification of the Flatfile listener configuration in `src/index.ts`.

The development shallowly embeds the three behaviours of the listener:

* the `recordHook("customers")` author-name validator (lines 193-205),
* the purchase-order transform inside the `job:completed` handler
  (lines 228-242), and
* the surrounding egress handler itself (lines 210-270), including the
  secret lookups that guard the mail send.

JavaScript numbers are modelled as exact rationals extended with `NaN`
and the two infinities; overflow of IEEE doubles to infinity is outside
the analysed computations (the constants and stock values are small).
-/

/-- Model of a JavaScript number: an exact rational, `NaN`, or an
infinity.  Rounding of IEEE doubles never matters for the analysed
inputs, so finite values are kept exact. -/
inductive JsNum : Type
  | nan : JsNum
  | posInf : JsNum
  | negInf : JsNum
  | val : ℚ → JsNum
  deriving DecidableEq, Repr

/-- Subtraction on `ℚ` computed through `mkRat`, so that concrete
inputs evaluate inside the kernel (the library subtraction is
irreducible); `ratSub_eq` below identifies it with `a - b`. -/
def ratSub (a b : ℚ) : ℚ := mkRat (a.num * b.den - b.num * a.den) (a.den * b.den)

/-- Model of JavaScript subtraction `a - b` on numbers (`NaN` is
absorbing, infinities follow IEEE rules). -/
def jsSub : JsNum → JsNum → JsNum
  | .nan, _ => .nan
  | _, .nan => .nan
  | .posInf, .posInf => .nan
  | .posInf, .negInf => .posInf
  | .posInf, .val _ => .posInf
  | .negInf, .posInf => .negInf
  | .negInf, .negInf => .nan
  | .negInf, .val _ => .negInf
  | .val _, .posInf => .negInf
  | .val _, .negInf => .posInf
  | .val a, .val b => .val (ratSub a b)

/-- Model of JavaScript `Math.max(a, b)`: `NaN` if either argument is
`NaN`, otherwise the larger argument. -/
def jsMax : JsNum → JsNum → JsNum
  | .nan, _ => .nan
  | _, .nan => .nan
  | .posInf, _ => .posInf
  | _, .posInf => .posInf
  | .negInf, b => b
  | a, .negInf => a
  | .val a, .val b => .val (cond (Rat.blt a b) b a)

/-- Model of the JavaScript comparison `a > b` on numbers: false
whenever either side is `NaN`. -/
def jsGt : JsNum → JsNum → Bool
  | .nan, _ => false
  | _, .nan => false
  | .posInf, .posInf => false
  | .posInf, .negInf => true
  | .posInf, .val _ => true
  | .negInf, _ => false
  | .val _, .posInf => false
  | .val _, .negInf => true
  | .val a, .val b => Rat.blt b a

/-- Model of a JavaScript primitive value as stored in a record cell. -/
inductive CellVal : Type
  | num : JsNum → CellVal
  | str : String → CellVal
  | boolVal : Bool → CellVal
  | nullVal : CellVal
  | undef : CellVal
  deriving DecidableEq, Repr

/-- Model of the JavaScript whitespace class `\s` (the characters JS
regexes and `ToNumber` trimming treat as whitespace). -/
def jsWhitespace (c : Char) : Bool :=
  c == ' ' || c == '\t' || c == '\n' || c == '\r' || c == '\x0b' || c == '\x0c' ||
  c == '\u00a0' || c == '\u1680' ||
  (decide ('\u2000' ≤ c) && decide (c ≤ '\u200a')) ||
  c == '\u2028' || c == '\u2029' || c == '\u202f' || c == '\u205f' ||
  c == '\u3000' || c == '\ufeff'

/-- Numeric value of a list of decimal digit characters, read most
significant first. -/
def digitsVal (cs : List Char) : ℚ :=
  cs.foldl (fun a c => a * 10 + ((c.toNat - 48 : ℕ) : ℚ)) 0

/-- Parse an unsigned decimal numeral (`digits`, `digits.digits`,
`digits.` or `.digits`), as JavaScript `ToNumber` does after trimming
and sign handling; `none` means the text is not such a numeral. -/
def parseUnsigned (cs : List Char) : Option ℚ :=
  match cs.span Char.isDigit with
  | (intPart, []) =>
      if intPart.isEmpty then none else some (digitsVal intPart)
  | (intPart, c :: fracPart) =>
      if c == '.' && fracPart.all Char.isDigit &&
          !(intPart.isEmpty && fracPart.isEmpty) then
        some (digitsVal intPart + digitsVal fracPart / ((10 : ℚ) ^ fracPart.length))
      else none

/-- Model of JavaScript `ToNumber` on strings: trim whitespace, the
empty string is `0`, an optionally signed plain decimal numeral is its
value, and any other text is `NaN`.  Hexadecimal, exponent and
`Infinity` forms do not occur in the analysed inputs and are treated as
text. -/
def strToNumber (s : String) : JsNum :=
  match ((s.data.dropWhile jsWhitespace).reverse.dropWhile jsWhitespace).reverse with
  | [] => JsNum.val 0
  | c :: rest =>
      if c == '+' then
        match parseUnsigned rest with
        | some q => JsNum.val q
        | none => JsNum.nan
      else if c == '-' then
        match parseUnsigned rest with
        | some q => JsNum.val (-q)
        | none => JsNum.nan
      else
        match parseUnsigned (c :: rest) with
        | some q => JsNum.val q
        | none => JsNum.nan

/-- Model of JavaScript `ToNumber` on a cell value, as applied by the
subtraction `3 - stockValue` in the transform. -/
def toNumber : CellVal → JsNum
  | .num x => x
  | .str s => strToNumber s
  | .boolVal b => .val (if b then 1 else 0)
  | .nullVal => .val 0
  | .undef => .nan

/-- Errors a handler can raise: the `TypeError` of a property access or
method call on an unsuitable value, and a failed secret lookup. -/
inductive JsError : Type
  | typeError : JsError
  | secretNotFound : JsError
  deriving DecidableEq, Repr

/-- Look up a key in a JavaScript-object-like association list (first
match wins; objects have unique keys, so this is plain property read). -/
def lookupKey {α : Type} : List (String × α) → String → Option α
  | [], _ => none
  | (k', v) :: rest, k => if k' = k then some v else lookupKey rest k

/-- Model of JavaScript property assignment `o[k] = v`: replace the
first binding of `k` if present, otherwise append a new binding. -/
def setKey {α : Type} : List (String × α) → String → α → List (String × α)
  | [], k, v => [(k, v)]
  | (k', v') :: rest, k, v =>
      if k' = k then (k, v) :: rest else (k', v') :: setKey rest k v

/-- Model of the object rest pattern `const { stock, ...fields } = o`
restricted to the removed key: drop every binding of `k`, keep the rest
in order. -/
def removeKey {α : Type} : List (String × α) → String → List (String × α)
  | [], _ => []
  | (k', v') :: rest, k =>
      if k' = k then removeKey rest k else (k', v') :: removeKey rest k

/-- A record cell as delivered by the records API: a value plus a
validity flag (the transform writes `{ value, valid: true }`). -/
structure Cell : Type where
  value : CellVal
  valid : Bool
  deriving DecidableEq, Repr

/-- The `values` object of one record: field key to cell. -/
abbrev Line := List (String × Cell)

/-- Embedding of the body of the `map` callback (src/index.ts lines
228-237): read `item.values.stock.value` (a `TypeError` when the
`stock` property is absent), compute
`Math.max(3 - stockValue, 0)`, attach
`purchase = { value, valid: true }` and drop `stock`. -/
def transformItem (values : Line) : Except JsError Line :=
  match lookupKey values "stock" with
  | none => .error JsError.typeError
  | some stockCell =>
      .ok (removeKey
        (setKey values "purchase"
          ⟨CellVal.num (jsMax (jsSub (JsNum.val 3) (toNumber stockCell.value)) (JsNum.val 0)), true⟩)
        "stock")

/-- Embedding of `currentInventory.data.records.map(...)` (line 228):
transform every record in order, an exception in the callback aborts
the whole map. -/
def purchaseInventory : List Line → Except JsError (List Line)
  | [] => .ok []
  | v :: rest =>
      match transformItem v with
      | .error e => .error e
      | .ok line =>
          match purchaseInventory rest with
          | .error e => .error e
          | .ok tail => .ok (line :: tail)

/-- Embedding of `purchaseInventory.filter((item) => item.purchase.value > 0)`
(lines 238-240): keep the lines whose purchase value compares greater
than `0`; reading `purchase` off an object without that property is a
`TypeError`. -/
def filterPurchase : List Line → Except JsError (List Line)
  | [] => .ok []
  | item :: rest =>
      match lookupKey item "purchase" with
      | none => .error JsError.typeError
      | some c =>
          match filterPurchase rest with
          | .error e => .error e
          | .ok tail =>
              .ok (if jsGt (toNumber c.value) (JsNum.val 0) then item :: tail else tail)

/-- The predicate of the filter step, as a function of one line. -/
def purchaseGtZero (item : Line) : Bool :=
  match lookupKey item "purchase" with
  | some c => jsGt (toNumber c.value) (JsNum.val 0)
  | none => false

/-- Decides whether a JavaScript number is a non-negative integer. -/
def isNonnegIntB : JsNum → Bool
  | .val q => decide (0 ≤ q) && (q.den == 1)
  | _ => false

/-- The apostrophe character, written by code point. -/
def apostrophe : Char := Char.ofNat 39

/-- The regex character class `[\p{L}'-]` of the author pattern,
relative to a decision procedure `isLetter` for the Unicode `Letter`
category (the development is parametric in it). -/
def letterClass (isLetter : Char → Bool) (c : Char) : Bool :=
  isLetter c || c == apostrophe || c == '-'

/-- Embedding of `validateNameFormat` (src/index.ts lines 194-197): the
anchored regex `\s*[\p{L}'-]+\s*,\s*[\p{L}'-]+\s*` tested against the
whole string.  Because the letter class, `,` and `\s` are pairwise
disjoint character classes in the real pattern, the greedy scan below
is equivalent to the backtracking regex. -/
def validateNameFormat (isLetter : Char → Bool) (name : String) : Bool :=
  let cs := name.data.dropWhile jsWhitespace
  let tok1 := cs.takeWhile (letterClass isLetter)
  let rest := cs.dropWhile (letterClass isLetter)
  if tok1.isEmpty then false
  else
    match rest.dropWhile jsWhitespace with
    | ',' :: rest2 =>
        let rest3 := rest2.dropWhile jsWhitespace
        let tok2 := rest3.takeWhile (letterClass isLetter)
        let rest4 := rest3.dropWhile (letterClass isLetter)
        if tok2.isEmpty then false
        else (rest4.dropWhile jsWhitespace).isEmpty
    | _ => false

/-- Accumulator loop for `jsSplitSpace`. -/
def splitSpaceAux : List Char → List Char → List String
  | [], acc => [String.mk acc.reverse]
  | c :: rest, acc =>
      if c == ' ' then String.mk acc.reverse :: splitSpaceAux rest []
      else splitSpaceAux rest (c :: acc)

/-- Embedding of the JavaScript call `s.split(" ")` with the one-space
separator: the (possibly empty) chunks between single spaces. -/
def jsSplitSpace (s : String) : List String :=
  splitSpaceAux s.data []

/-- Model of the template-literal fragment `s[i]` applied to an array of
strings: out-of-range indexing yields `undefined`, which the template
renders as the literal text `undefined`. -/
def jsIndexToString : List String → Nat → String
  | [], _ => "undefined"
  | s :: _, 0 => s
  | _ :: rest, n + 1 => jsIndexToString rest n

/-- Model of JavaScript number-to-string conversion.  Exact double
formatting is never exercised by the analysed inputs; integers print as
decimal numerals and other rationals via their num/den form. -/
def jsNumToString : JsNum → String
  | .nan => "NaN"
  | .posInf => "Infinity"
  | .negInf => "-Infinity"
  | .val q => if q.den = 1 then toString q.num else toString q

/-- Model of JavaScript `ToString` on a cell value, as applied by
`pattern.test(name)` to a non-string argument. -/
def jsToString : CellVal → String
  | .num x => jsNumToString x
  | .str s => s
  | .boolVal b => if b then "true" else "false"
  | .nullVal => "null"
  | .undef => "undefined"

/-- A record as seen by the record hook: its field values and the
comments attached so far (`record.addComment` appends to the latter). -/
structure FRecord : Type where
  fields : List (String × CellVal)
  comments : List (String × String)
  deriving DecidableEq, Repr

/-- Model of `record.get(key)`: the stored value, or `null` when the
record has no such field (the hook API reads absent fields as null). -/
def recordGet (fields : List (String × CellVal)) (k : String) : CellVal :=
  match lookupKey fields k with
  | some v => v
  | none => CellVal.nullVal

/-- The comment text attached by the hook. -/
def authorComment : String := "Author name was updated for vendor"

/-- Embedding of the `recordHook("customers")` callback (src/index.ts
lines 193-205): test the author value against the name pattern; on
failure split it on single spaces, rewrite it as
`` `${nameSplit[1]}, ${nameSplit[0]}` `` and attach one comment to the
`author` field; calling `.split` on a non-string raises a `TypeError`.
When the pattern matches, the callback returns without touching the
record. -/
def customersHook (isLetter : Char → Bool) (r : FRecord) : Except JsError FRecord :=
  if validateNameFormat isLetter (jsToString (recordGet r.fields "author")) then
    .ok r
  else
    match recordGet r.fields "author" with
    | CellVal.str s =>
        let nameSplit := jsSplitSpace s
        .ok { fields := setKey r.fields "author"
                (CellVal.str (jsIndexToString nameSplit 1 ++ ", " ++ jsIndexToString nameSplit 0)),
              comments := r.comments ++ [("author", authorComment)] }
    | _ => .error JsError.typeError

/-- External calls the `job:completed` handler performs, in order. -/
inductive Effect : Type
  | secretsGet : String → Effect
  | workbooksGet : Effect
  | recordsGet : Nat → Effect
  | recordsInsert : Nat → List Line → Effect
  | getRecordsAsCsv : Nat → Effect
  | sendMail : String → String → String → String → String → String → String → String → Effect
  deriving Repr

/-- Recognizes the mail-transport call among the handler's effects. -/
def isSendMailEffect : Effect → Bool
  | .sendMail _ _ _ _ _ _ _ _ => true
  | _ => false

/-- The environment a `job:completed` event runs against: the secret
store scoped to the event, the workbook's sheet ids in platform order,
the source sheet's record values, and the CSV text the export returns. -/
structure EgressEnv : Type where
  secretStore : String → Option String
  sheetIds : List Nat
  inventoryRecords : List Line
  csv : String

/-- Embedding of the `job:completed` handler (src/index.ts lines
210-270), returning the external calls made and the outcome.
Modelled from the spec: `event.secrets` is platform library code not in
`src/`; per the spec the handler resolves the `email` and `password`
secrets and fails — does not send — when either is absent.  The
remaining steps follow the source: read `data.sheets[0].id` and
`data.sheets[1].id` (a `TypeError` when fewer than two sheets exist),
fetch the source records, map `transformItem` over them, filter to
positive purchase values, insert into the order sheet, export the CSV
and send one mail (from the `email` secret, to `warehouse@books.com`,
subject `Purchase Order`, body `Attached`, attachment `orders.csv`). -/
def runEgress (env : EgressEnv) : List Effect × Except JsError Unit :=
  match env.secretStore "email" with
  | none => ([Effect.secretsGet "email"], .error JsError.secretNotFound)
  | some email =>
      match env.secretStore "password" with
      | none =>
          ([Effect.secretsGet "email", Effect.secretsGet "password"],
           .error JsError.secretNotFound)
      | some password =>
          match env.sheetIds with
          | inventorySheet :: orderSheet :: _ =>
              match purchaseInventory env.inventoryRecords with
              | .error e =>
                  ([Effect.secretsGet "email", Effect.secretsGet "password",
                    Effect.workbooksGet, Effect.recordsGet inventorySheet], .error e)
              | .ok lines =>
                  match filterPurchase lines with
                  | .error e =>
                      ([Effect.secretsGet "email", Effect.secretsGet "password",
                        Effect.workbooksGet, Effect.recordsGet inventorySheet], .error e)
                  | .ok purchaseOrder =>
                      ([Effect.secretsGet "email", Effect.secretsGet "password",
                        Effect.workbooksGet, Effect.recordsGet inventorySheet,
                        Effect.recordsInsert orderSheet purchaseOrder,
                        Effect.getRecordsAsCsv orderSheet,
                        Effect.sendMail email password email "warehouse@books.com"
                          "Purchase Order" "Attached" "orders.csv" env.csv],
                       .ok ())
          | _ =>
              ([Effect.secretsGet "email", Effect.secretsGet "password",
                Effect.workbooksGet], .error JsError.typeError)

/-- A record whose author field is already in `Surname, Given` form. -/
def recSmith : FRecord := ⟨[("author", CellVal.str "Smith, John")], []⟩

/-- A record whose author field is a two-token `Given Surname` string. -/
def recJohn : FRecord := ⟨[("author", CellVal.str "John Smith")], []⟩

/-- A record whose author field is a single token. -/
def recSolo : FRecord := ⟨[("author", CellVal.str "Cher")], []⟩

/-- A record with no author field at all. -/
def recNoAuthor : FRecord := ⟨[], []⟩

/-- A stock cell holding the given number. -/
def stockCell (x : JsNum) : Cell := ⟨CellVal.num x, true⟩

/-- A one-record source table with stock 1. -/
def records0 : List Line := [[("stock", stockCell (JsNum.val 1))]]

/-- The purchase lines the transform derives from `records0`. -/
def lines0 : List Line := [[("purchase", ⟨CellVal.num (JsNum.val 2), true⟩)]]

/-- An event environment whose secret store is empty. -/
def envNone : EgressEnv := ⟨fun _ => none, [], [], ""⟩

/-- A record with a pass-through field next to its stock field. -/
def valuesTitle : Line := [("title", ⟨CellVal.str "Dune", true⟩), ("stock", stockCell (JsNum.val 1))]

/-- A record whose stock is the integer 5, written as an integer cast. -/
def valuesStock5 : Line := [("stock", ⟨CellVal.num (JsNum.val ((5 : ℤ) : ℚ)), true⟩)]

/-- A record whose stock is the number 1. -/
def valuesStock1 : Line := [("stock", ⟨CellVal.num (JsNum.val 1), true⟩)]

theorem ratSub_eq (a b : ℚ) : ratSub a b = a - b := by
  have ha : (a.den : ℚ) ≠ 0 := Nat.cast_ne_zero.mpr a.den_nz
  have hb : (b.den : ℚ) ≠ 0 := Nat.cast_ne_zero.mpr b.den_nz
  rw [ratSub, Rat.mkRat_eq_div]
  conv_rhs => rw [← Rat.num_div_den a, ← Rat.num_div_den b]
  rw [div_sub_div _ _ ha hb]
  push_cast
  ring_nf

theorem jsSub_val (a b : ℚ) : jsSub (.val a) (.val b) = .val (a - b) := by
  simp only [jsSub]
  rw [ratSub_eq]

theorem jsMax_val (a b : ℚ) : jsMax (.val a) (.val b) = .val (max a b) := by
  simp only [jsMax]
  congr 1
  by_cases h : a < b
  · have hab : Rat.blt a b = true := h
    rw [hab, max_eq_right (le_of_lt h)]
    rfl
  · have hab : Rat.blt a b = false := by
      rw [← Bool.not_eq_true]
      exact fun hc => h hc
    rw [hab, max_eq_left (not_lt.mp h)]
    rfl

theorem lookupKey_setKey_self {α : Type} (l : List (String × α)) (k : String) (v : α) :
    lookupKey (setKey l k v) k = some v := by
  induction l with
  | nil => simp [setKey, lookupKey]
  | cons p rest ih =>
    obtain ⟨k', v'⟩ := p
    by_cases h : k' = k
    · subst h
      simp [setKey, lookupKey]
    · simp [setKey, lookupKey, h, ih]

theorem lookupKey_setKey_ne {α : Type} (l : List (String × α)) (k k' : String) (v : α)
    (h : k' ≠ k) : lookupKey (setKey l k' v) k = lookupKey l k := by
  induction l with
  | nil => simp [setKey, lookupKey, h]
  | cons p rest ih =>
    obtain ⟨a, b⟩ := p
    by_cases ha : a = k'
    · subst ha
      simp [setKey, lookupKey, h]
    · simp [setKey, lookupKey, ha, ih]

theorem lookupKey_removeKey_self {α : Type} (l : List (String × α)) (k : String) :
    lookupKey (removeKey l k) k = none := by
  induction l with
  | nil => simp [removeKey, lookupKey]
  | cons p rest ih =>
    obtain ⟨a, b⟩ := p
    by_cases ha : a = k
    · simp [removeKey, ha, ih]
    · simp [removeKey, lookupKey, ha, ih]

theorem lookupKey_removeKey_ne {α : Type} (l : List (String × α)) (k k' : String)
    (h : k' ≠ k) : lookupKey (removeKey l k') k = lookupKey l k := by
  induction l with
  | nil => simp [removeKey, lookupKey]
  | cons p rest ih =>
    obtain ⟨a, b⟩ := p
    by_cases ha : a = k'
    · subst ha
      simp [removeKey, lookupKey, h, ih]
    · simp [removeKey, lookupKey, ha, ih]

theorem transformItem_eq (values : Line) (c : Cell)
    (h : lookupKey values "stock" = some c) :
    transformItem values = .ok (removeKey (setKey values "purchase"
      ⟨CellVal.num (jsMax (jsSub (JsNum.val 3) (toNumber c.value)) (JsNum.val 0)), true⟩) "stock") := by
  simp [transformItem, h]

theorem transformItem_purchase (values out : Line) (h : transformItem values = .ok out) :
    ∃ x : JsNum, lookupKey out "purchase" = some ⟨CellVal.num x, true⟩ := by
  cases hstock : lookupKey values "stock" with
  | none => simp [transformItem, hstock] at h
  | some c =>
    rw [transformItem_eq values c hstock] at h
    injection h with h2
    subst h2
    refine ⟨jsMax (jsSub (JsNum.val 3) (toNumber c.value)) (JsNum.val 0), ?_⟩
    rw [lookupKey_removeKey_ne _ _ _ (by decide), lookupKey_setKey_self]

theorem purchaseInventory_mem (records lines : List Line)
    (h : purchaseInventory records = .ok lines) :
    ∀ line ∈ lines, ∃ values ∈ records, transformItem values = .ok line := by
  induction records generalizing lines with
  | nil =>
    simp only [purchaseInventory, Except.ok.injEq] at h
    subst h
    simp
  | cons v rest ih =>
    cases htr : transformItem v with
    | error e => simp [purchaseInventory, htr] at h
    | ok line0 =>
      cases hrec : purchaseInventory rest with
      | error e => simp [purchaseInventory, htr, hrec] at h
      | ok tail =>
        simp only [purchaseInventory, htr, hrec, Except.ok.injEq] at h
        subst h
        intro line hline
        rcases List.mem_cons.mp hline with rfl | hmem
        · exact ⟨v, List.mem_cons_self v rest, htr⟩
        · obtain ⟨values, hv, htv⟩ := ih tail hrec line hmem
          exact ⟨values, List.mem_cons_of_mem v hv, htv⟩

theorem filterPurchase_eq (l out : List Line) (h : filterPurchase l = .ok out) :
    out = l.filter purchaseGtZero := by
  induction l generalizing out with
  | nil =>
    simp only [filterPurchase, Except.ok.injEq] at h
    subst h
    simp
  | cons item rest ih =>
    cases hlook : lookupKey item "purchase" with
    | none => simp [filterPurchase, hlook] at h
    | some c =>
      cases hrec : filterPurchase rest with
      | error e => simp [filterPurchase, hlook, hrec] at h
      | ok tail =>
        simp only [filterPurchase, hlook, hrec, Except.ok.injEq] at h
        subst h
        rw [List.filter_cons, ih tail hrec]
        have hp : purchaseGtZero item = jsGt (toNumber c.value) (JsNum.val 0) := by
          simp [purchaseGtZero, hlook]
        rw [hp]

/-- Claim C1: a derived purchase-order line is passed to the
destination-table insert if and only if its computed `purchase.value`
compares greater than 0; in particular a line whose value is 0 is never
inserted. -/
theorem claim_C1_inserted_iff_positive (records lines inserted : List Line)
    (hmap : purchaseInventory records = .ok lines)
    (hfil : filterPurchase lines = .ok inserted) :
    ∀ line ∈ lines, ∃ x : JsNum,
      lookupKey line "purchase" = some ⟨CellVal.num x, true⟩ ∧
      (line ∈ inserted ↔ jsGt x (JsNum.val 0) = true) := by
  intro line hline
  obtain ⟨values, _, htr⟩ := purchaseInventory_mem records lines hmap line hline
  obtain ⟨x, hx⟩ := transformItem_purchase values line htr
  refine ⟨x, hx, ?_⟩
  have hins : inserted = lines.filter purchaseGtZero := filterPurchase_eq lines inserted hfil
  subst hins
  simp [List.mem_filter, hline, purchaseGtZero, hx, toNumber]

theorem claim_C1_inserted_iff_positive_w :
    ∃ x : JsNum,
      lookupKey [("purchase", (⟨CellVal.num (JsNum.val 2), true⟩ : Cell))] "purchase" =
        some ⟨CellVal.num x, true⟩ ∧
      ([("purchase", (⟨CellVal.num (JsNum.val 2), true⟩ : Cell))] ∈ lines0 ↔
        jsGt x (JsNum.val 0) = true) :=
  claim_C1_inserted_iff_positive records0 lines0 lines0 rfl rfl
    [("purchase", ⟨CellVal.num (JsNum.val 2), true⟩)] (by decide)

/-- Claim C2: for every source record whose stock cell holds the finite
number `s`, the transform attaches the purchase quantity
`max (3 - s) 0`, which is never negative. -/
theorem claim_C2_purchase_quantity (values : Line) (c : Cell) (s : ℚ)
    (hc : lookupKey values "stock" = some c)
    (hv : c.value = CellVal.num (JsNum.val s)) :
    ∃ out, transformItem values = .ok out ∧
      lookupKey out "purchase" = some ⟨CellVal.num (JsNum.val (max (3 - s) 0)), true⟩ ∧
      0 ≤ max (3 - s) 0 := by
  refine ⟨_, transformItem_eq values c hc, ?_, le_max_right _ _⟩
  rw [hv, lookupKey_removeKey_ne _ _ _ (by decide), lookupKey_setKey_self]
  simp only [toNumber]
  rw [jsSub_val, jsMax_val]

theorem claim_C2_purchase_quantity_w :
    ∃ out, transformItem valuesStock1 = .ok out ∧
      lookupKey out "purchase" = some ⟨CellVal.num (JsNum.val (max ((3 : ℚ) - 1) 0)), true⟩ ∧
      0 ≤ max ((3 : ℚ) - 1) 0 :=
  claim_C2_purchase_quantity valuesStock1 ⟨CellVal.num (JsNum.val 1), true⟩ 1 rfl rfl

/-- Claim C3, counterexample: a record whose stock value is the number
`NaN` is processed without any precondition violation, yet its derived
purchase value is `NaN`, which is not a non-negative integer. -/
theorem claim_C3_counterexample :
    transformItem [("stock", ⟨CellVal.num JsNum.nan, true⟩)] =
      .ok [("purchase", ⟨CellVal.num JsNum.nan, true⟩)] ∧
    isNonnegIntB JsNum.nan = false :=
  ⟨rfl, rfl⟩

/-- Claim C3 as amended: for every source record whose stock field is
present and holds a finite integer-valued number, the derived purchase
value is a non-negative integer (for `NaN`, non-numeric or fractional
stock values the original claim fails). -/
theorem claim_C3_amended_nonneg_integer (values : Line) (c : Cell) (n : ℤ)
    (hc : lookupKey values "stock" = some c)
    (hv : c.value = CellVal.num (JsNum.val (n : ℚ))) :
    ∃ out, transformItem values = .ok out ∧
      ∃ q : ℚ, lookupKey out "purchase" = some ⟨CellVal.num (JsNum.val q), true⟩ ∧
        0 ≤ q ∧ q.den = 1 := by
  refine ⟨_, transformItem_eq values c hc, max (3 - (n : ℚ)) 0, ?_, le_max_right _ _, ?_⟩
  · rw [hv, lookupKey_removeKey_ne _ _ _ (by decide), lookupKey_setKey_self]
    simp only [toNumber]
    rw [jsSub_val, jsMax_val]
  · have h1 : max (3 - (n : ℚ)) 0 = ((max (3 - n) 0 : ℤ) : ℚ) := by
      push_cast
      rfl
    rw [h1, Rat.den_intCast]

theorem claim_C3_amended_nonneg_integer_w :
    ∃ out, transformItem valuesStock5 = .ok out ∧
      ∃ q : ℚ, lookupKey out "purchase" = some ⟨CellVal.num (JsNum.val q), true⟩ ∧
        0 ≤ q ∧ q.den = 1 :=
  claim_C3_amended_nonneg_integer valuesStock5 ⟨CellVal.num (JsNum.val ((5 : ℤ) : ℚ)), true⟩ 5 rfl rfl

/-- Claim C4: when the `email` or the `password` secret is absent, the
egress handler fails with no mail-transport call among its effects. -/
theorem claim_C4_missing_secret_no_send (env : EgressEnv)
    (h : env.secretStore "email" = none ∨ env.secretStore "password" = none) :
    (∀ e ∈ (runEgress env).1, isSendMailEffect e = false) ∧
    ∃ err, (runEgress env).2 = .error err := by
  rcases h with h | h
  · refine ⟨?_, JsError.secretNotFound, ?_⟩
    · intro e he
      simp only [runEgress, h, List.mem_singleton] at he
      subst he
      rfl
    · simp [runEgress, h]
  · cases he : env.secretStore "email" with
    | none =>
      refine ⟨?_, JsError.secretNotFound, ?_⟩
      · intro e hmem
        simp only [runEgress, he, List.mem_singleton] at hmem
        subst hmem
        rfl
      · simp [runEgress, he]
    | some email =>
      refine ⟨?_, JsError.secretNotFound, ?_⟩
      · intro e hmem
        simp only [runEgress, he, h, List.mem_cons, List.not_mem_nil, or_false] at hmem
        rcases hmem with rfl | rfl <;> rfl
      · simp [runEgress, he, h]

theorem claim_C4_missing_secret_no_send_w :
    (∀ e ∈ (runEgress envNone).1, isSendMailEffect e = false) ∧
    ∃ err, (runEgress envNone).2 = .error err :=
  claim_C4_missing_secret_no_send envNone (Or.inl rfl)

/-- Claim C5, evaluation at the failing input: a record whose stock is
the non-numeric string `abc` is transformed with no error into a line
whose purchase value is `NaN`, and the filter then silently drops that
line; a record with no stock field at all instead aborts the whole
handler with a `TypeError` — in neither case is a per-record validation
error surfaced. -/
theorem claim_C5_silent_coercion_eval :
    transformItem [("stock", ⟨CellVal.str "abc", true⟩)] =
      .ok [("purchase", ⟨CellVal.num JsNum.nan, true⟩)] ∧
    filterPurchase [[("purchase", ⟨CellVal.num JsNum.nan, true⟩)]] = .ok [] ∧
    transformItem [("title", ⟨CellVal.str "Dune", true⟩)] = .error JsError.typeError :=
  ⟨rfl, rfl, rfl⟩

/-- Claim C6: a record whose author field is a string matching the
name pattern is left untouched by the hook — same fields, same
comments, no annotation added. -/
theorem claim_C6_wellformed_noop (isLetter : Char → Bool) (r : FRecord) (s : String)
    (hget : recordGet r.fields "author" = CellVal.str s)
    (hok : validateNameFormat isLetter s = true) :
    customersHook isLetter r = .ok r := by
  simp [customersHook, hget, jsToString, hok]

theorem claim_C6_wellformed_noop_w : customersHook Char.isAlpha recSmith = .ok recSmith :=
  claim_C6_wellformed_noop Char.isAlpha recSmith "Smith, John" rfl (by decide)

/-- Claim C7: a record whose author field is a two-token
`Given Surname` string that fails the name pattern is rewritten to
exactly `Surname, Given`, with exactly one comment appended on the
author field. -/
theorem claim_C7_two_token_rewrite (isLetter : Char → Bool) (r : FRecord)
    (s given surname : String)
    (hget : recordGet r.fields "author" = CellVal.str s)
    (hsplit : jsSplitSpace s = [given, surname])
    (hval : validateNameFormat isLetter s = false) :
    customersHook isLetter r =
      .ok { fields := setKey r.fields "author" (CellVal.str (surname ++ ", " ++ given)),
            comments := r.comments ++ [("author", authorComment)] } := by
  simp [customersHook, hget, jsToString, hval, hsplit, jsIndexToString]

theorem claim_C7_two_token_rewrite_w :
    customersHook Char.isAlpha recJohn =
      .ok { fields := setKey recJohn.fields "author" (CellVal.str ("Smith" ++ ", " ++ "John")),
            comments := recJohn.comments ++ [("author", authorComment)] } :=
  claim_C7_two_token_rewrite Char.isAlpha recJohn "John Smith" "John" "Smith" rfl rfl (by decide)

/-- Claim C8: a record whose author field is a string with fewer than
two space-separated tokens (and failing the name pattern) is rewritten
to a value that contains the literal word `undefined` in place of the
missing surname token. -/
theorem claim_C8_single_token_undefined (isLetter : Char → Bool) (r : FRecord)
    (s t : String)
    (hget : recordGet r.fields "author" = CellVal.str s)
    (hsplit : jsSplitSpace s = [t])
    (hval : validateNameFormat isLetter s = false) :
    customersHook isLetter r =
      .ok { fields := setKey r.fields "author" (CellVal.str ("undefined" ++ ", " ++ t)),
            comments := r.comments ++ [("author", authorComment)] } := by
  simp [customersHook, hget, jsToString, hval, hsplit, jsIndexToString]

theorem claim_C8_single_token_undefined_w :
    customersHook Char.isAlpha recSolo =
      .ok { fields := setKey recSolo.fields "author" (CellVal.str ("undefined" ++ ", " ++ "Cher")),
            comments := recSolo.comments ++ [("author", authorComment)] } :=
  claim_C8_single_token_undefined Char.isAlpha recSolo "Cher" "Cher" rfl rfl (by decide)

/-- Claim C9: whenever a source record has a stock field, the derived
line is exactly the record with stock removed and a purchase cell
added — stock is gone, purchase is present, and every other field reads
the same as in the source. -/
theorem claim_C9_frame (values : Line) (c : Cell)
    (hc : lookupKey values "stock" = some c) :
    ∃ out, transformItem values = .ok out ∧
      lookupKey out "stock" = none ∧
      (∃ x : JsNum, lookupKey out "purchase" = some ⟨CellVal.num x, true⟩) ∧
      ∀ k, k ≠ "stock" → k ≠ "purchase" → lookupKey out k = lookupKey values k := by
  refine ⟨_, transformItem_eq values c hc, ?_,
    ⟨jsMax (jsSub (JsNum.val 3) (toNumber c.value)) (JsNum.val 0), ?_⟩, ?_⟩
  · exact lookupKey_removeKey_self _ _
  · rw [lookupKey_removeKey_ne _ _ _ (by decide), lookupKey_setKey_self]
  · intro k hks hkp
    rw [lookupKey_removeKey_ne _ _ _ (Ne.symm hks), lookupKey_setKey_ne _ _ _ _ (Ne.symm hkp)]

theorem claim_C9_frame_w :
    ∃ out, transformItem valuesTitle = .ok out ∧
      lookupKey out "stock" = none ∧
      (∃ x : JsNum, lookupKey out "purchase" = some ⟨CellVal.num x, true⟩) ∧
      ∀ k, k ≠ "stock" → k ≠ "purchase" → lookupKey out k = lookupKey valuesTitle k :=
  claim_C9_frame valuesTitle (stockCell (JsNum.val 1)) rfl

/-- Claim C10: a record whose author field is absent or not a string,
and whose coerced text fails the name pattern, makes the hook throw a
`TypeError` (the `split` call on a non-string) instead of returning a
record or acting as a no-op. -/
theorem claim_C10_nonstring_author_throws (isLetter : Char → Bool) (r : FRecord)
    (hns : ∀ s, recordGet r.fields "author" ≠ CellVal.str s)
    (hval : validateNameFormat isLetter (jsToString (recordGet r.fields "author")) = false) :
    customersHook isLetter r = .error JsError.typeError := by
  have hcond : ¬ validateNameFormat isLetter (jsToString (recordGet r.fields "author")) = true := by
    simp [hval]
  unfold customersHook
  rw [if_neg hcond]
  cases hv : recordGet r.fields "author" with
  | num x => rfl
  | str s => exact absurd hv (hns s)
  | boolVal b => rfl
  | nullVal => rfl
  | undef => rfl

theorem claim_C10_nonstring_author_throws_w :
    customersHook Char.isAlpha recNoAuthor = .error JsError.typeError :=
  claim_C10_nonstring_author_throws Char.isAlpha recNoAuthor
    (fun s h => by simp [recordGet, recNoAuthor, lookupKey] at h) (by decide)
